import Mathlib

/-!
# Verification of the wide-to-long reshape pipeline

Shallow embedding of the core of `src/wide_to_long_pyqt5.py`:
the cell-address resolver (`a1_to_rc`), the block extractor
(`read_block_from_header`), the reshaper (header derivation, row
filtering, `melt`, null filtering) and the writer's output-path routing.

Strings are modelled as `List Char` over their ASCII fragment (the
Python code also handles wider Unicode in `str.strip` / `\d`, but every
behaviour the claims exercise is ASCII).  Spreadsheet cell values are a
closed variant (null / text / integer); other openpyxl value kinds
(float, bool, date) follow the same code paths through their `str` text
form and are not needed by any claim.
-/

abbrev Str := List Char

/-- Whitespace characters stripped by Python's `str.strip()` (ASCII fragment). -/
def isWsChar (c : Char) : Bool :=
  c = ' ' || c = '\t' || c = '\n' || c = '\x0d' || c = '\x0b' || c = '\x0c'

/-- Python `str.strip()`: drop leading and trailing whitespace. -/
def pyStrip (s : Str) : Str :=
  ((s.dropWhile isWsChar).reverse.dropWhile isWsChar).reverse

/-- `[A-Za-z]` character class (codepoint ranges 65-90 and 97-122). -/
def isLetterCh (c : Char) : Bool :=
  ('A'.toNat ≤ c.toNat && c.toNat ≤ 'Z'.toNat) ||
    ('a'.toNat ≤ c.toNat && c.toNat ≤ 'z'.toNat)

/-- `\d` character class (ASCII fragment, codepoints 48-57). -/
def isDigitCh (c : Char) : Bool :=
  '0'.toNat ≤ c.toNat && c.toNat ≤ '9'.toNat

/-- Python `str.upper()` on one ASCII character. -/
def upperCh (c : Char) : Char :=
  if 'a'.toNat ≤ c.toNat && c.toNat ≤ 'z'.toNat then Char.ofNat (c.toNat - 32)
  else c

/-- Python `str.lower()` on one ASCII character. -/
def lowerCh (c : Char) : Char :=
  if 'A'.toNat ≤ c.toNat && c.toNat ≤ 'Z'.toNat then Char.ofNat (c.toNat + 32)
  else c

/-- Python `str.lower()` on a string. -/
def pyLower (s : Str) : Str := s.map lowerCh

/-- Plain decimal parse of a digit run, as Python `int` on a `\d+` match
(leading zeros allowed: `int("01") = 1`). -/
def decimalVal (s : Str) : Nat :=
  s.foldl (fun a c => a * 10 + (c.toNat - '0'.toNat)) 0

/-- The column accumulation loop of `a1_to_rc` (source lines 22-24):
`col = col * 26 + (ord(ch) - ord('A') + 1)` over the uppercased letters. -/
def colVal (s : Str) : Nat :=
  s.foldl (fun a c => a * 26 + ((upperCh c).toNat - 'A'.toNat + 1)) 0

/-- `a1_to_rc` (source lines 17-26): strip the input, full-match it against
`([A-Za-z]+)(\d+)` and return `(row, col)`; `none` models the raised
`ValueError` ("非法单元格地址").  Because the letter and digit classes are
disjoint, a full match of `([A-Za-z]+)(\d+)` exists exactly when the
maximal letter prefix is non-empty and the remainder is a non-empty digit
run. -/
def a1_to_rc (a1 : Str) : Option (Nat × Nat) :=
  let t := pyStrip a1
  let L := t.takeWhile isLetterCh
  let D := t.dropWhile isLetterCh
  if L ≠ [] ∧ D ≠ [] ∧ D.all isDigitCh then
    some (decimalVal D, colVal L)
  else
    none

/-- The core of `A1_REGEX = re.compile(r"^[A-Za-z]+[1-9]\d*$")`
(source line 15): one or more letters, then a digit run with no leading
zero, spanning the whole string. -/
def a1RegexCore (s : Str) : Bool :=
  let L := s.takeWhile isLetterCh
  let D := s.dropWhile isLetterCh
  L ≠ [] &&
    (match D with
     | [] => false
     | d :: ds => ('1'.toNat ≤ d.toNat && d.toNat ≤ '9'.toNat) && ds.all isDigitCh)

/-- `A1_REGEX.match(s)` truthiness: the pattern is anchored by `^...$`, and
Python's `$` also matches just before one trailing newline. -/
def a1RegexMatch (s : Str) : Bool :=
  a1RegexCore s || (s.getLast? = some '\n' && a1RegexCore s.dropLast)

/-- A spreadsheet cell value: Python `None`, a text cell, or an integer
cell.  This is the closed variant of values the claims exercise. -/
inductive Cell where
  | null : Cell
  | str : Str → Cell
  | int : Int → Cell
deriving DecidableEq, Repr

/-- Python `str(n)` for an integer. -/
def intStr (n : Int) : Str :=
  if n < 0 then '-' :: Nat.toDigits 10 n.natAbs else Nat.toDigits 10 n.toNat

/-- Python `str(v)` for a cell value (`str(None) = "None"`; the code paths
below only ever reach the `None` branch behind an `is None` guard). -/
def cellStr (c : Cell) : Str :=
  match c with
  | .null => ['N', 'o', 'n', 'e']
  | .str s => s
  | .int n => intStr n

/-- The emptiness test used by the extractor's trimming (source lines 45
and 54): `v is None or str(v).strip() == ""`. -/
def cellIsEmpty (c : Cell) : Bool :=
  c = .null || pyStrip (cellStr c) = []

/-- `pandas.isna` on a cell: only null/NaN counts as missing — a blank
string does not. -/
def cellIsNA (c : Cell) : Bool :=
  c = .null

/-- A worksheet as openpyxl presents it: a populated extent `max_row` ×
`max_column` and a total cell lookup (cells outside the populated extent
read as `None`, which `cell` is free to model). -/
structure Sheet where
  maxRow : Nat
  maxCol : Nat
  cell : Nat → Nat → Cell

/-- The raw rectangular read loop of `read_block_from_header` (source
lines 32-38): rows `start_r .. max_r`, columns `start_c .. max_c`. -/
def rawBlock (ws : Sheet) (startR startC : Nat) : List (List Cell) :=
  (List.range' startR (ws.maxRow + 1 - startR)).map fun r =>
    (List.range' startC (ws.maxCol + 1 - startC)).map fun c => ws.cell r c

/-- `col_is_all_none` (source lines 44-45): column `ci` is empty in every
row of the block. -/
def colAllEmpty (data : List (List Cell)) (ci : Nat) : Bool :=
  data.all fun row => cellIsEmpty (row.getD ci .null)

/-- The backward trimming scan shared by both `while` loops of
`read_block_from_header`: starting from `n`, decrement the bound while
the entry just below it satisfies `p`. -/
def trimScan (p : Nat → Bool) : Nat → Nat
  | 0 => 0
  | n + 1 => if p n then trimScan p n else n + 1

/-- The final `end_c` of the trailing-empty-column scan (source lines
47-49): start from `len(data[0])` and decrement while column `end_c - 1`
is entirely empty. -/
def endC (data : List (List Cell)) : Nat :=
  trimScan (colAllEmpty data) (data.headD []).length

/-- `data = [row[:end_c] for row in data]` (source line 50). -/
def trimCols (data : List (List Cell)) : List (List Cell) :=
  data.map fun row => row.take (endC data)

/-- `row_is_all_none` (source lines 53-54) on a given row. -/
def rowAllEmpty (row : List Cell) : Bool :=
  row.all cellIsEmpty

/-- The final `end_r` of the trailing-empty-row scan (source lines
56-58): start from `len(data)` and decrement while row `end_r - 1` is
entirely empty. -/
def endR (data : List (List Cell)) : Nat :=
  trimScan (fun ri => rowAllEmpty (data.getD ri [])) data.length

/-- `data = data[:end_r]` (source line 59). -/
def trimRows (data : List (List Cell)) : List (List Cell) :=
  data.take (endR data)

/-- The pipeline's error kinds (the spec's names for the `ValueError` /
`FileNotFoundError` raises of the source). -/
inductive PipeErr where
  | invalidAddress : PipeErr
  | emptyBlock : PipeErr
  | missingIdColumn : PipeErr
  | noValueColumns : PipeErr
deriving DecidableEq, Repr

/-- `read_block_from_header` (source lines 28-63): resolve the anchor,
read the raw rectangle, fail if it has no rows, trim trailing empty
columns then trailing empty rows, and fail if nothing (or a zero-width
header row) remains.  Both `ValueError` raises about missing data map to
`PipeErr.emptyBlock`. -/
def read_block_from_header (ws : Sheet) (headerCell : Str) :
    Except PipeErr (List (List Cell)) :=
  match a1_to_rc headerCell with
  | none => .error .invalidAddress
  | some (startR, startC) =>
    let data := rawBlock ws startR startC
    if data = [] then .error .emptyBlock
    else
      let d := trimRows (trimCols data)
      if d = [] ∨ d.headD [] = [] then .error .emptyBlock
      else .ok d

/-- A 3×3 sheet whose third row and third column are entirely empty and
whose rows/columns 1-2 are populated. -/
def sheet3x3 : Sheet where
  maxRow := 3
  maxCol := 3
  cell r c :=
    if r ≤ 2 ∧ c ≤ 2 then .str ['v'] else .null

/-- Decidable equality for `Except`, for evaluating pipeline results. -/
instance {ε α : Type} [DecidableEq ε] [DecidableEq α] :
    DecidableEq (Except ε α) := fun a b =>
  match a, b with
  | .ok x, .ok y =>
    if h : x = y then .isTrue (by simp [h]) else .isFalse (by simp [h])
  | .error x, .error y =>
    if h : x = y then .isTrue (by simp [h]) else .isFalse (by simp [h])
  | .ok _, .error _ => .isFalse (by simp)
  | .error _, .ok _ => .isFalse (by simp)

/-- Header text of one header cell (source line 81):
`"" if h is None else str(h).strip()`. -/
def headerText (h : Cell) : Str :=
  if h = .null then [] else pyStrip (cellStr h)

/-- The default name for a blank header cell at 0-based position `i`
(source lines 82-84): `f"col_{i+1}"`. -/
def colDefault (i : Nat) : Str :=
  ['c', 'o', 'l', '_'] ++ Nat.toDigits 10 (i + 1)

/-- The derived header names of a block's first row (source lines 81-84). -/
def deriveHeader (row : List Cell) : List Str :=
  (row.map headerText).enum.map fun p => if p.2 = [] then colDefault p.1 else p.2

/-- The data rows surviving `df.dropna(how="all")` (source lines 85-87):
a row is dropped exactly when every cell is null/NaN.  (Blank strings are
not NaN to pandas, so all-blank rows survive.) -/
def keptRows (block : List (List Cell)) : List (List Cell) :=
  (block.drop 1).filter fun r => !(r.all cellIsNA)

/-- `id_col = id_col_name or header[0]` (source line 89); the GUI passes
`None` for a blank entry, modelled as `Option.none`. -/
def reshapeIdCol (header : List Str) (idColName : Option Str) : Str :=
  match idColName with
  | some s => s
  | none => header.headD []

/-- The positions of `value_cols = [c for c in df.columns if c != id_col]`
(source line 93), one per header occurrence whose name differs from the
identifier column. -/
def valueIdxs (header : List Str) (idCol : Str) : List Nat :=
  (List.range header.length).filter fun j => header.getD j [] ≠ idCol

/-- The position `df[id_col]` reads from: the first header occurrence of
the identifier name. -/
def idIdx (header : List Str) (idCol : Str) : Nat :=
  header.findIdx fun h => h = idCol

/-- The long record melt builds from data row `r` and value column `j`:
`(identifier value, column name, cell value)`. -/
def meltCellAt (header : List Str) (idCol : Str) (r : List Cell) (j : Nat) :
    Cell × Str × Cell :=
  (r.getD (idIdx header idCol) .null, header.getD j [], r.getD j .null)

/-- `df.melt(id_vars=[id_col], ...)` (source line 97): pandas emits, for
each value column in `df.columns` order, one record per data row in row
order — the result is variable-major. -/
def meltRecords (header : List Str) (idCol : Str) (rows : List (List Cell)) :
    List (Cell × Str × Cell) :=
  (valueIdxs header idCol).flatMap fun j =>
    rows.map fun r => meltCellAt header idCol r j

/-- A long-form table: its three column names and its records
`(identifier value, variable name, value)`. -/
structure LongTable where
  columns : List Str
  records : List (Cell × Str × Cell)
deriving DecidableEq, Repr

/-- The reshaper (source lines 81-98): derive headers, drop all-null data
rows, resolve the identifier column, demand at least one value column,
melt, and drop records whose value is null/NaN
(`long_df[~long_df[value_name].isna()]`, source line 98). -/
def reshape (block : List (List Cell)) (idColName : Option Str)
    (varName valueName : Str) : Except PipeErr LongTable :=
  let header := deriveHeader (block.headD [])
  let kept := keptRows block
  let idCol := reshapeIdCol header idColName
  if idCol ∉ header then .error .missingIdColumn
  else if valueIdxs header idCol = [] then .error .noValueColumns
  else
    let melted := meltRecords header idCol kept
    .ok ⟨[idCol, varName, valueName], melted.filter fun t => !cellIsNA t.2.2⟩

/-- The output serialization format chosen by the writer. -/
inductive OutFormat where
  | excel : OutFormat
  | csv : OutFormat
deriving DecidableEq, Repr

/-- A `pathlib.Path` as the writer uses it: a directory part and a final
name component. -/
structure PyPath where
  dir : List Str
  name : Str
deriving DecidableEq, Repr

/-- The 0-based position of the last dot of a name (`name.rfind('.')`),
or `none` when there is no dot. -/
def lastDotIdx (name : Str) : Option Nat :=
  ((name.enum.filter fun p => p.2 = '.').getLast?).map fun p => p.1

/-- `pathlib.PurePath.suffix`: the part from the last dot on, provided
that dot is neither the first nor the last character; otherwise empty. -/
def pySuffix (name : Str) : Str :=
  match lastDotIdx name with
  | some i => if 0 < i ∧ i + 1 < name.length then name.drop i else []
  | none => []

/-- `pathlib.PurePath.stem`: the name with `pySuffix` removed. -/
def pyStem (name : Str) : Str :=
  match lastDotIdx name with
  | some i => if 0 < i ∧ i + 1 < name.length then name.take i else name
  | none => name

/-- The fixed set of recognized spreadsheet extensions (source line 103). -/
def spreadsheetExts : List Str :=
  [['.', 'x', 'l', 's', 'x'], ['.', 'x', 'l', 's', 'm'],
   ['.', 'x', 'l', 't', 'x'], ['.', 'x', 'l', 't', 'm'],
   ['.', 'x', 'l', 's']]

/-- The writer's output-path routing (source lines 100-110): the
tentative name is `{stem}_long{suffix if suffix else '.xlsx'}` in the
input's directory; if the lowercased suffix is a recognized spreadsheet
extension the file is written there as a workbook, otherwise the path is
reassigned to `{stem}_long.csv` and written as CSV.  The returned pair is
(path actually written, format); the source returns exactly the path it
wrote in both branches. -/
def outputTarget (input : PyPath) : PyPath × OutFormat :=
  let stem := pyStem input.name
  let suffix := pySuffix input.name
  let out1 : PyPath :=
    ⟨input.dir, stem ++ ['_', 'l', 'o', 'n', 'g'] ++
      (if suffix ≠ [] then suffix else ['.', 'x', 'l', 's', 'x'])⟩
  if pyLower suffix ∈ spreadsheetExts then (out1, .excel)
  else (⟨input.dir, stem ++ ['_', 'l', 'o', 'n', 'g', '.', 'c', 's', 'v']⟩, .csv)

/-- The rows serialized to the output file: the header row
`[id_col, var_name, value_name]` followed by one row per long record
(`to_excel` / `to_csv` with `index=False`, source lines 104-108). -/
def writeContent (t : LongTable) : List (List Cell) :=
  (t.columns.map Cell.str) :: t.records.map fun r => [r.1, .str r.2.1, r.2.2]

/-- `wide_to_long_from_excel` (source lines 65-110) after the workbook is
loaded: extract the block at the anchor, reshape it, and route the output.
Success carries the output path, its format and the serialized rows; file
I/O itself (existence check, workbook parsing) is outside the model. -/
def wide_to_long_from_excel (ws : Sheet) (input : PyPath) (headerCell : Str)
    (idColName : Option Str) (varName valueName : Str) :
    Except PipeErr (PyPath × OutFormat × List (List Cell)) :=
  match read_block_from_header ws headerCell with
  | .error e => .error e
  | .ok block =>
    match reshape block idColName varName valueName with
    | .error e => .error e
    | .ok t => .ok ((outputTarget input).1, (outputTarget input).2, writeContent t)

/-- The derived header names of a block (shorthand for the header the
reshaper computes from the block's first row). -/
def blockHeader (block : List (List Cell)) : List Str :=
  deriveHeader (block.headD [])

/-- Modelled from the amended ordering claim: for each non-identifier
column in header order, for each surviving data row in row order, emit
the record unless its value is null — a variable-major (column-major)
enumeration, written independently of `melt` for comparison. -/
def colMajorSpecRecords (header : List Str) (idCol : Str)
    (rows : List (List Cell)) : List (Cell × Str × Cell) :=
  (valueIdxs header idCol).flatMap fun j =>
    (rows.filter fun r => !cellIsNA (r.getD j .null)).map fun r =>
      meltCellAt header idCol r j

/-- The default `var_name` parameter, `"variable"`. -/
def varNameDefault : Str := ['v', 'a', 'r', 'i', 'a', 'b', 'l', 'e']

/-- The default `value_name` parameter, `"value"`. -/
def valueNameDefault : Str := ['v', 'a', 'l', 'u', 'e']

/-- The spec's worked reshape example: header `["id","2020","2021"]`,
rows `[("x",10,None),("y",None,30)]`. -/
def wideExampleBlock : List (List Cell) :=
  [[.str ['i', 'd'], .str ['2', '0', '2', '0'], .str ['2', '0', '2', '1']],
   [.str ['x'], .int 10, .null],
   [.str ['y'], .null, .int 30]]

/-- A fully populated 2×2 wide block under the same header. -/
def wideFullBlock : List (List Cell) :=
  [[.str ['i', 'd'], .str ['2', '0', '2', '0'], .str ['2', '0', '2', '1']],
   [.str ['x'], .int 10, .int 20],
   [.str ['y'], .int 30, .int 40]]

/-- A block whose single data cell is a blank (whitespace-only) string. -/
def blankValueBlock : List (List Cell) :=
  [[.str ['i', 'd'], .str ['2', '0', '2', '0']],
   [.str ['x'], .str [' ']]]

/-- A block with an interior data row made entirely of blank strings. -/
def blankRowBlock : List (List Cell) :=
  [[.str ['i', 'd'], .str ['a']],
   [.str [' '], .str [' ']],
   [.str ['x'], .int 1]]

/-- A header-only block whose two header names are identical. -/
def dupHeaderBlock : List (List Cell) :=
  [[.str ['x'], .str ['x']]]

/-! ## Helper lemmas about characters and stripping -/

lemma isWsChar_elim (c : Char) (h : isWsChar c = true) :
    c = ' ' ∨ c = '\t' ∨ c = '\n' ∨ c = '\x0d' ∨ c = '\x0b' ∨ c = '\x0c' := by
  have h' : ((((c = ' ' ∨ c = '\t') ∨ c = '\n') ∨ c = '\x0d') ∨ c = '\x0b') ∨
      c = '\x0c' := by simpa [isWsChar] using h
  tauto

lemma isLetterCh_range (c : Char) (h : isLetterCh c = true) :
    (65 ≤ c.toNat ∧ c.toNat ≤ 90) ∨ (97 ≤ c.toNat ∧ c.toNat ≤ 122) := by
  have hA : 'A'.toNat = 65 := by decide
  have hZ : 'Z'.toNat = 90 := by decide
  have ha : 'a'.toNat = 97 := by decide
  have hz : 'z'.toNat = 122 := by decide
  simpa [isLetterCh, hA, hZ, ha, hz] using h

lemma isDigitCh_range (c : Char) (h : isDigitCh c = true) :
    48 ≤ c.toNat ∧ c.toNat ≤ 57 := by
  have h0 : '0'.toNat = 48 := by decide
  have h9 : '9'.toNat = 57 := by decide
  simpa [isDigitCh, h0, h9] using h

lemma isDigitCh_of_range (c : Char) (h : 48 ≤ c.toNat ∧ c.toNat ≤ 57) :
    isDigitCh c = true := by
  have h0 : '0'.toNat = 48 := by decide
  have h9 : '9'.toNat = 57 := by decide
  simpa [isDigitCh, h0, h9] using h

lemma letter_not_ws (c : Char) (h : isLetterCh c = true) : isWsChar c = false := by
  by_contra hw
  have hw' : isWsChar c = true := by
    cases hq : isWsChar c with
    | true => rfl
    | false => exact absurd hq hw
  have hr := isLetterCh_range c h
  rcases isWsChar_elim c hw' with h1 | h1 | h1 | h1 | h1 | h1 <;>
    subst h1 <;> revert hr <;> decide

lemma digit_not_ws (c : Char) (h : isDigitCh c = true) : isWsChar c = false := by
  by_contra hw
  have hw' : isWsChar c = true := by
    cases hq : isWsChar c with
    | true => rfl
    | false => exact absurd hq hw
  have hr := isDigitCh_range c h
  rcases isWsChar_elim c hw' with h1 | h1 | h1 | h1 | h1 | h1 <;>
    subst h1 <;> revert hr <;> decide

lemma digit_not_letter (c : Char) (h : isDigitCh c = true) : isLetterCh c = false := by
  by_contra hl
  have hl' : isLetterCh c = true := by
    cases hq : isLetterCh c with
    | true => rfl
    | false => exact absurd hq hl
  have h1 := isDigitCh_range c h
  have h2 := isLetterCh_range c hl'
  omega

lemma dropWhile_eq_self_of_head (p : Char → Bool) :
    ∀ s : Str, (∀ c, s.head? = some c → p c = false) → s.dropWhile p = s
  | [], _ => rfl
  | c :: t, h => by
    have hc : p c = false := h c rfl
    simp [List.dropWhile_cons, hc]

lemma dropWhile_eq_self_of_all (p : Char → Bool) (s : Str)
    (h : ∀ c ∈ s, p c = false) : s.dropWhile p = s := by
  refine dropWhile_eq_self_of_head p s fun c hc => h c ?_
  cases s with
  | nil => simp at hc
  | cons a t =>
    simp at hc
    subst hc
    exact List.mem_cons_self _ _

/-- `str.strip()` is the identity on a string with no whitespace at all. -/
lemma pyStrip_eq_self (s : Str) (h : ∀ c ∈ s, isWsChar c = false) :
    pyStrip s = s := by
  unfold pyStrip
  rw [dropWhile_eq_self_of_all _ s h,
    dropWhile_eq_self_of_all _ s.reverse (fun c hc => h c (List.mem_reverse.mp hc)),
    List.reverse_reverse]

/-- `str.strip()` removes exactly one trailing whitespace character from an
otherwise whitespace-free string. -/
lemma pyStrip_append_ws (s : Str) (w : Char) (hw : isWsChar w = true)
    (h : ∀ c ∈ s, isWsChar c = false) : pyStrip (s ++ [w]) = s := by
  cases s with
  | nil =>
    unfold pyStrip
    simp [List.dropWhile_cons, hw]
  | cons a t =>
    unfold pyStrip
    have ha : isWsChar a = false := h a (by simp)
    rw [show ((a :: t) ++ [w]).dropWhile isWsChar = (a :: t) ++ [w] by
      simp [List.dropWhile_cons, ha]]
    have hrev : ((a :: t) ++ [w]).reverse = w :: (a :: t).reverse := by simp
    rw [hrev, List.dropWhile_cons, hw]
    simp only [if_true]
    rw [dropWhile_eq_self_of_all _ (a :: t).reverse
      (fun c hc => h c (List.mem_reverse.mp hc)), List.reverse_reverse]

lemma takeWhile_append_of (p : Char → Bool) (L D : Str)
    (hL : ∀ c ∈ L, p c = true) (hD : ∀ c, D.head? = some c → p c = false) :
    (L ++ D).takeWhile p = L ∧ (L ++ D).dropWhile p = D := by
  induction L with
  | nil =>
    refine ⟨?_, by simpa using dropWhile_eq_self_of_head p D hD⟩
    cases D with
    | nil => rfl
    | cons d t =>
      have hd : p d = false := hD d rfl
      simp [List.takeWhile_cons, hd]
  | cons c t ih =>
    have hc : p c = true := hL c (by simp)
    have iht := ih fun x hx => hL x (by simp [hx])
    simp [List.takeWhile_cons, List.dropWhile_cons, hc, iht.1, iht.2]

/-- Every character of a letters-then-digits run is non-whitespace. -/
lemma letters_digits_not_ws (L D : Str) (hLa : L.all isLetterCh = true)
    (hDa : D.all isDigitCh = true) : ∀ c ∈ L ++ D, isWsChar c = false := by
  intro c hc
  rcases List.mem_append.mp hc with h | h
  · exact letter_not_ws c (List.all_eq_true.mp hLa c h)
  · exact digit_not_ws c (List.all_eq_true.mp hDa c h)

/-- On an input that is a non-empty letter run followed by a non-empty
digit run, `a1_to_rc` succeeds and returns the decimal row and base-26
column of the two runs. -/
lemma a1_to_rc_letters_digits (L D : Str) (hL : L ≠ [])
    (hLa : L.all isLetterCh = true) (hD : D ≠ []) (hDa : D.all isDigitCh = true) :
    a1_to_rc (L ++ D) = some (decimalVal D, colVal L) := by
  have hstrip : pyStrip (L ++ D) = L ++ D :=
    pyStrip_eq_self _ (letters_digits_not_ws L D hLa hDa)
  have hdec := takeWhile_append_of isLetterCh L D
    (fun c hc => List.all_eq_true.mp hLa c hc)
    (fun c hc => by
      have hmem : c ∈ D := by
        cases D with
        | nil => simp at hc
        | cons d t =>
          simp at hc
          subst hc
          exact List.mem_cons_self _ _
      exact digit_not_letter c (List.all_eq_true.mp hDa c hmem))
  unfold a1_to_rc
  rw [hstrip]
  simp only [hdec.1, hdec.2]
  simp [hL, hD, hDa]

/-- The base-26 accumulation stays at least 1 once it is at least 1. -/
lemma colVal_foldl_ge (t : Str) :
    ∀ a : Nat, 1 ≤ a →
      1 ≤ t.foldl (fun a c => a * 26 + ((upperCh c).toNat - 'A'.toNat + 1)) a := by
  induction t with
  | nil => intro a ha; simpa using ha
  | cons c t ih =>
    intro a ha
    simp only [List.foldl_cons]
    exact ih _ (by omega)

/-- A non-empty letter run has column value at least 1. -/
lemma colVal_pos (L : Str) (hL : L ≠ []) : 1 ≤ colVal L := by
  cases L with
  | nil => exact absurd rfl hL
  | cons c t =>
    unfold colVal
    simp only [List.foldl_cons]
    exact colVal_foldl_ge t _ (by omega)

/-- The decimal accumulation stays at least 1 once it is at least 1. -/
lemma decimalVal_foldl_ge (t : Str) :
    ∀ a : Nat, 1 ≤ a → 1 ≤ t.foldl (fun a c => a * 10 + (c.toNat - '0'.toNat)) a := by
  induction t with
  | nil => intro a ha; simpa using ha
  | cons c t ih =>
    intro a ha
    simp only [List.foldl_cons]
    exact ih _ (by omega)

/-- A digit run whose first digit is `1`-`9` has decimal value at least 1. -/
lemma decimalVal_pos (d : Char) (ds : Str) (hd : 49 ≤ d.toNat) :
    1 ≤ decimalVal (d :: ds) := by
  unfold decimalVal
  simp only [List.foldl_cons]
  have h0 : '0'.toNat = 48 := by decide
  exact decimalVal_foldl_ge ds _ (by omega)

/-- Unpacking a match of the strict `A1_REGEX` core: the string is its
letter prefix followed by a digit run starting in `1`-`9`, and contains no
whitespace. -/
lemma a1RegexCore_elim (s : Str) (h : a1RegexCore s = true) :
    s.takeWhile isLetterCh ≠ [] ∧
      ∃ d ds, s.dropWhile isLetterCh = d :: ds ∧ 49 ≤ d.toNat ∧ d.toNat ≤ 57 ∧
        ds.all isDigitCh = true := by
  unfold a1RegexCore at h
  rw [Bool.and_eq_true] at h
  obtain ⟨hL, hD⟩ := h
  refine ⟨by simpa using hL, ?_⟩
  cases hcase : s.dropWhile isLetterCh with
  | nil => rw [hcase] at hD; simp at hD
  | cons d ds =>
    rw [hcase] at hD
    simp only at hD
    rw [Bool.and_eq_true, Bool.and_eq_true] at hD
    obtain ⟨⟨hd1, hd2⟩, hds⟩ := hD
    have h1 : '1'.toNat = 49 := by decide
    have h9 : '9'.toNat = 57 := by decide
    refine ⟨d, ds, rfl, ?_, ?_, hds⟩
    · have := of_decide_eq_true hd1; omega
    · have := of_decide_eq_true hd2; omega

/-- On a string matching the strict `A1_REGEX` core, `a1_to_rc` succeeds
with row and column both at least 1. -/
lemma a1RegexCore_a1_to_rc (s : Str) (h : a1RegexCore s = true) :
    a1_to_rc s = some (decimalVal (s.dropWhile isLetterCh),
      colVal (s.takeWhile isLetterCh)) ∧
      1 ≤ decimalVal (s.dropWhile isLetterCh) ∧
      1 ≤ colVal (s.takeWhile isLetterCh) := by
  obtain ⟨hL, d, ds, hD, hd1, hd2, hds⟩ := a1RegexCore_elim s h
  have hLa : (s.takeWhile isLetterCh).all isLetterCh = true :=
    List.all_eq_true.mpr fun c hc => List.mem_takeWhile_imp hc
  have hDa : (s.dropWhile isLetterCh).all isDigitCh = true := by
    rw [hD]
    simp only [List.all_cons, Bool.and_eq_true]
    exact ⟨isDigitCh_of_range d ⟨by omega, hd2⟩, hds⟩
  have hsplit : s.takeWhile isLetterCh ++ s.dropWhile isLetterCh = s :=
    List.takeWhile_append_dropWhile isLetterCh s
  have hval : a1_to_rc (s.takeWhile isLetterCh ++ s.dropWhile isLetterCh) =
      some (decimalVal (s.dropWhile isLetterCh), colVal (s.takeWhile isLetterCh)) :=
    a1_to_rc_letters_digits _ _ hL hLa (by rw [hD]; simp) hDa
  have heq : a1_to_rc s =
      a1_to_rc (s.takeWhile isLetterCh ++ s.dropWhile isLetterCh) := by
    rw [hsplit]
  refine ⟨heq.trans hval, ?_, colVal_pos _ hL⟩
  rw [hD]
  exact decimalVal_pos d ds hd1

/-- A string matching the strict core contains no whitespace. -/
lemma a1RegexCore_no_ws (s : Str) (h : a1RegexCore s = true) :
    ∀ c ∈ s, isWsChar c = false := by
  obtain ⟨hL, d, ds, hD, hd1, hd2, hds⟩ := a1RegexCore_elim s h
  intro c hc
  rw [← List.takeWhile_append_dropWhile (p := isLetterCh) (l := s)] at hc
  rcases List.mem_append.mp hc with hmem | hmem
  · exact letter_not_ws c (List.mem_takeWhile_imp hmem)
  · rw [hD] at hmem
    rcases List.mem_cons.mp hmem with hmem | hmem
    · subst hmem; exact digit_not_ws c (isDigitCh_of_range c ⟨by omega, hd2⟩)
    · exact digit_not_ws c (List.all_eq_true.mp hds c hmem)

/-- `a1_to_rc` only looks at the stripped input. -/
lemma a1_to_rc_congr_strip (s s2 : Str) (h : pyStrip s = pyStrip s2) :
    a1_to_rc s = a1_to_rc s2 := by
  unfold a1_to_rc
  rw [h]

/-! ## Claim theorems about the resolver (C5, C6, C9) -/

/-- C5 counterexample: the claim says `resolve` fails on every input that
does not match one-or-more letters followed by an integer with no leading
zero, naming `"A01"` as a failing input.  But `a1_to_rc` matches the laxer
`([A-Za-z]+)(\d+)` and accepts `"A01"`, returning `(1, 1)` — even though
`"A01"` indeed fails the strict `A1_REGEX` core. -/
theorem C5_counterexample_A01 :
    a1_to_rc ['A', '0', '1'] = some (1, 1) ∧
      a1RegexCore ['A', '0', '1'] = false := by decide

/-- C5 (amended): `a1_to_rc` fails exactly on inputs whose stripped form is
not one-or-more letters followed by one-or-more digits (leading zeros in
the digit run are accepted); in particular it fails on `""`, `"5"`, `"A"`
and `"1A"`.  The stricter no-leading-zero rule is enforced by the separate
`A1_REGEX` check in the callers, not by `a1_to_rc`. -/
theorem C5_amended_resolver_failure :
    (∀ s : Str, a1_to_rc s = none ↔
      ¬ ∃ L D : Str, pyStrip s = L ++ D ∧ L ≠ [] ∧ D ≠ [] ∧
        L.all isLetterCh = true ∧ D.all isDigitCh = true)
    ∧ a1_to_rc [] = none ∧ a1_to_rc ['5'] = none
    ∧ a1_to_rc ['A'] = none ∧ a1_to_rc ['1', 'A'] = none := by
  refine ⟨fun s => ⟨?_, ?_⟩, by decide, by decide, by decide, by decide⟩
  · intro h hex
    obtain ⟨L, D, heq, hL, hD, hLa, hDa⟩ := hex
    have h1 : pyStrip (L ++ D) = L ++ D :=
      pyStrip_eq_self _ (letters_digits_not_ws L D hLa hDa)
    have h2 : a1_to_rc s = a1_to_rc (L ++ D) :=
      a1_to_rc_congr_strip s (L ++ D) (by rw [heq, h1])
    rw [h2, a1_to_rc_letters_digits L D hL hLa hD hDa] at h
    exact Option.noConfusion h
  · intro hnex
    unfold a1_to_rc
    dsimp only
    split
    case isTrue hcond =>
      exact absurd
        ⟨(pyStrip s).takeWhile isLetterCh, (pyStrip s).dropWhile isLetterCh,
          (List.takeWhile_append_dropWhile _ _).symm, hcond.1, hcond.2.1,
          List.all_eq_true.mpr fun c hc => List.mem_takeWhile_imp hc,
          hcond.2.2⟩ hnex
    case isFalse hcond => rfl

/-- C5 witness: the amended characterization is satisfiable — `"z9"` has a
letters-then-digits stripped form, so `a1_to_rc` does not fail on it. -/
theorem C5_amended_resolver_failure_witness : a1_to_rc ['z', '9'] ≠ none :=
  fun h =>
    (C5_amended_resolver_failure.1 ['z', '9']).mp h
      ⟨['z'], ['9'], by decide, by decide, by decide, by decide, by decide⟩

/-- C6: on every valid address — a letter run followed by a digit run —
`a1_to_rc` returns the row as the plain decimal value of the digit run and
the column as the left-to-right base-26 accumulation (A=1) of the
uppercased letters; in particular `A1 ↦ (1,1)`, `Z1 ↦ (1,26)`,
`AA1 ↦ (1,27)`, `BC10 ↦ (10,55)`, and case-insensitively
`bc10 ↦ (10,55)`. -/
theorem C6_resolver_algorithm :
    (∀ L D : Str, L ≠ [] → L.all isLetterCh = true → D ≠ [] →
        D.all isDigitCh = true →
      a1_to_rc (L ++ D) = some (decimalVal D, colVal L))
    ∧ a1_to_rc ['A', '1'] = some (1, 1)
    ∧ a1_to_rc ['Z', '1'] = some (1, 26)
    ∧ a1_to_rc ['A', 'A', '1'] = some (1, 27)
    ∧ a1_to_rc ['B', 'C', '1', '0'] = some (10, 55)
    ∧ a1_to_rc ['b', 'c', '1', '0'] = some (10, 55) :=
  ⟨a1_to_rc_letters_digits, by decide, by decide, by decide, by decide,
    by decide⟩

/-- C6 witness: the general algorithm statement applied to the concrete
letter run `BC` and digit run `10`. -/
theorem C6_resolver_algorithm_witness :
    a1_to_rc (['B', 'C'] ++ ['1', '0']) =
      some (decimalVal ['1', '0'], colVal ['B', 'C']) :=
  C6_resolver_algorithm.1 ['B', 'C'] ['1', '0'] (by decide) (by decide)
    (by decide) (by decide)

/-- C9 counterexample: the claim says every successful `resolve` has
row ≥ 1, because only strings with a no-leading-zero number are accepted.
But `a1_to_rc` accepts `"A0"` and returns row `0`. -/
theorem C9_counterexample_A0 :
    a1_to_rc ['A', '0'] = some (0, 1) ∧ ¬ (1 ≤ (0 : Nat)) := by decide

/-- C9 (amended): every successful `a1_to_rc` call returns column ≥ 1,
and row ≥ 1 additionally holds whenever the input passes the strict
`A1_REGEX` check that the program's callers perform before resolving. -/
theorem C9_amended_coordinates_positive :
    (∀ s : Str, ∀ r c : Nat, a1_to_rc s = some (r, c) → 1 ≤ c)
    ∧ (∀ s : Str, ∀ r c : Nat, a1RegexMatch s = true →
        a1_to_rc s = some (r, c) → 1 ≤ r ∧ 1 ≤ c) := by
  constructor
  · intro s r c h
    unfold a1_to_rc at h
    dsimp only at h
    split at h
    case isTrue hcond =>
      simp only [Option.some.injEq, Prod.mk.injEq] at h
      obtain ⟨hr, hc⟩ := h
      rw [← hc]
      exact colVal_pos _ hcond.1
    case isFalse hcond => simp at h
  · intro s r c hm h
    have hcases : a1RegexCore s = true ∨
        (s.getLast? = some '\n' ∧ a1RegexCore s.dropLast = true) := by
      unfold a1RegexMatch at hm
      rw [Bool.or_eq_true] at hm
      rcases hm with hm | hm
      · exact Or.inl hm
      · rw [Bool.and_eq_true] at hm
        exact Or.inr ⟨of_decide_eq_true hm.1, hm.2⟩
    rcases hcases with hcore | ⟨hlast, hcore⟩
    · obtain ⟨heq, hr, hc⟩ := a1RegexCore_a1_to_rc s hcore
      rw [heq] at h
      simp only [Option.some.injEq, Prod.mk.injEq] at h
      exact ⟨h.1 ▸ hr, h.2 ▸ hc⟩
    · have hne : s ≠ [] := by
        intro hnil
        rw [hnil] at hlast
        simp at hlast
      have hsplit : s.dropLast ++ [s.getLast hne] = s :=
        List.dropLast_concat_getLast hne
      have hlasteq : s.getLast hne = '\n' := by
        have hq : s.getLast? = some (s.getLast hne) :=
          List.getLast?_eq_getLast s hne
        rw [hq] at hlast
        exact Option.some.inj hlast
      have hstrip : pyStrip s = s.dropLast := by
        conv_lhs => rw [← hsplit, hlasteq]
        exact pyStrip_append_ws _ _ (by decide) (a1RegexCore_no_ws _ hcore)
      have hstrip2 : pyStrip s.dropLast = s.dropLast :=
        pyStrip_eq_self _ (a1RegexCore_no_ws _ hcore)
      have hcongr : a1_to_rc s = a1_to_rc s.dropLast :=
        a1_to_rc_congr_strip _ _ (by rw [hstrip, hstrip2])
      obtain ⟨heq, hr, hc⟩ := a1RegexCore_a1_to_rc _ hcore
      rw [hcongr, heq] at h
      simp only [Option.some.injEq, Prod.mk.injEq] at h
      exact ⟨h.1 ▸ hr, h.2 ▸ hc⟩

/-- C9 witness: both positivity statements applied to the concrete
resolution of `"BC10"` (and `"BC10"` passes `A1_REGEX`). -/
theorem C9_amended_coordinates_positive_witness :
    1 ≤ (55 : Nat) ∧ (1 ≤ (10 : Nat) ∧ 1 ≤ (55 : Nat)) :=
  ⟨C9_amended_coordinates_positive.1 ['B', 'C', '1', '0'] 10 55 (by decide),
   C9_amended_coordinates_positive.2 ['B', 'C', '1', '0'] 10 55 (by decide)
     (by decide)⟩

/-! ## Helper lemmas about the trimming scans -/

/-- Everything at or above the scan's stopping point (and below the
start) satisfies the scan predicate: only entries that tested empty were
passed over. -/
lemma trimScan_all (p : Nat → Bool) :
    ∀ n i, trimScan p n ≤ i → i < n → p i = true := by
  intro n
  induction n with
  | zero => intro i h1 h2; omega
  | succ n ih =>
    intro i h1 h2
    cases hc : p n with
    | true =>
      rw [trimScan, hc, if_pos rfl] at h1
      rcases Nat.lt_succ_iff_lt_or_eq.mp h2 with h | h
      · exact ih i h1 h
      · rw [h]; exact hc
    | false =>
      rw [trimScan, hc] at h1
      simp at h1
      omega

/-- The scan stops at the first failing entry: the entry just below a
positive stopping point does not satisfy the predicate. -/
lemma trimScan_boundary (p : Nat → Bool) :
    ∀ n, 0 < trimScan p n → p (trimScan p n - 1) = false := by
  intro n
  induction n with
  | zero => intro h; rw [trimScan] at h; omega
  | succ n ih =>
    intro h
    cases hc : p n with
    | true =>
      have he : trimScan p (n + 1) = trimScan p n := by
        rw [trimScan, hc, if_pos rfl]
      rw [he] at h ⊢
      exact ih h
    | false =>
      have he : trimScan p (n + 1) = n + 1 := by
        rw [trimScan, hc]
        simp
      rw [he]
      simpa using hc

/-! ## Claim theorems about the extractor (C4, C7) -/

/-- C4: the extractor trims columns first and then rows (structurally,
`read_block_from_header` applies `trimRows` to the output of `trimCols`),
and each scan removes exactly the contiguous trailing run of all-empty
lines: every removed column (index at or above `endC`, below the width)
is entirely empty, the last kept column is not entirely empty, and
likewise for rows against the already-narrowed data; consequently the
3×3 block at anchor A1 whose third row and third column are empty yields
a 2×2 block. -/
theorem C4_trimming_order :
    (∀ data : List (List Cell), ∀ ci, endC data ≤ ci →
        ci < (data.headD []).length → colAllEmpty data ci = true)
    ∧ (∀ data : List (List Cell), 0 < endC data →
        colAllEmpty data (endC data - 1) = false)
    ∧ (∀ data : List (List Cell), ∀ ri, endR data ≤ ri → ri < data.length →
        rowAllEmpty (data.getD ri []) = true)
    ∧ (∀ data : List (List Cell), 0 < endR data →
        rowAllEmpty (data.getD (endR data - 1) []) = false)
    ∧ read_block_from_header sheet3x3 ['A', '1'] =
        .ok [[.str ['v'], .str ['v']], [.str ['v'], .str ['v']]] :=
  ⟨fun data => trimScan_all (colAllEmpty data) (data.headD []).length,
   fun data => trimScan_boundary (colAllEmpty data) (data.headD []).length,
   fun data => trimScan_all (fun ri => rowAllEmpty (data.getD ri [])) data.length,
   fun data => trimScan_boundary (fun ri => rowAllEmpty (data.getD ri [])) data.length,
   by decide⟩

/-- C4 witness: the trimming facts evaluated on the concrete 3×3 block of
`sheet3x3`: its removed third column was entirely empty and its kept
second column was not, and likewise for the rows of the narrowed data. -/
theorem C4_trimming_order_witness :
    colAllEmpty (rawBlock sheet3x3 1 1) 2 = true
    ∧ colAllEmpty (rawBlock sheet3x3 1 1) (endC (rawBlock sheet3x3 1 1) - 1) = false
    ∧ rowAllEmpty ((trimCols (rawBlock sheet3x3 1 1)).getD 2 []) = true
    ∧ rowAllEmpty ((trimCols (rawBlock sheet3x3 1 1)).getD
        (endR (trimCols (rawBlock sheet3x3 1 1)) - 1) []) = false :=
  ⟨C4_trimming_order.1 (rawBlock sheet3x3 1 1) 2 (by decide) (by decide),
   C4_trimming_order.2.1 (rawBlock sheet3x3 1 1) (by decide),
   C4_trimming_order.2.2.1 (trimCols (rawBlock sheet3x3 1 1)) 2 (by decide)
     (by decide),
   C4_trimming_order.2.2.2.1 (trimCols (rawBlock sheet3x3 1 1)) (by decide)⟩

/-- C7: with a valid anchor, `read_block_from_header` fails with the
empty-block error exactly when the raw rectangle has no rows, or when
after trimming no rows remain, or when after trimming the first row has
no cells; and whenever it succeeds, the returned block and its first row
are both non-empty. -/
theorem C7_empty_block_conditions :
    ∀ ws : Sheet, ∀ hc : Str, ∀ r0 c0 : Nat, a1_to_rc hc = some (r0, c0) →
      (read_block_from_header ws hc = .error .emptyBlock ↔
        rawBlock ws r0 c0 = [] ∨ trimRows (trimCols (rawBlock ws r0 c0)) = [] ∨
          (trimRows (trimCols (rawBlock ws r0 c0))).headD [] = [])
      ∧ (∀ d, read_block_from_header ws hc = .ok d →
          d ≠ [] ∧ d.headD [] ≠ []) := by
  intro ws hc r0 c0 ha
  unfold read_block_from_header
  rw [ha]
  dsimp only
  refine ⟨⟨fun h => ?_, fun h => ?_⟩, fun d hd => ?_⟩
  · by_cases h1 : rawBlock ws r0 c0 = []
    · exact Or.inl h1
    · rw [if_neg h1] at h
      by_cases h2 : trimRows (trimCols (rawBlock ws r0 c0)) = [] ∨
          (trimRows (trimCols (rawBlock ws r0 c0))).headD [] = []
      · exact Or.inr h2
      · rw [if_neg h2] at h
        exact absurd h (by simp)
  · rcases h with h1 | h2
    · rw [if_pos h1]
    · by_cases h1 : rawBlock ws r0 c0 = []
      · rw [if_pos h1]
      · rw [if_neg h1, if_pos h2]
  · by_cases h1 : rawBlock ws r0 c0 = []
    · rw [if_pos h1] at hd
      exact absurd hd (by simp)
    · rw [if_neg h1] at hd
      by_cases h2 : trimRows (trimCols (rawBlock ws r0 c0)) = [] ∨
          (trimRows (trimCols (rawBlock ws r0 c0))).headD [] = []
      · rw [if_pos h2] at hd
        exact absurd hd (by simp)
      · rw [if_neg h2] at hd
        have hdd : trimRows (trimCols (rawBlock ws r0 c0)) = d := by
          simpa using hd
        push_neg at h2
        rw [← hdd]
        exact h2

/-! ## Helper lemmas about the reshaper -/

/-- Filtering one value column's mapped records by null value is the same
as filtering the rows first. -/
lemma filter_value_map (header : List Str) (idCol : Str) (j : Nat)
    (rows : List (List Cell)) :
    (rows.map fun r => meltCellAt header idCol r j).filter
        (fun t => !cellIsNA t.2.2) =
      (rows.filter fun r => !cellIsNA (r.getD j .null)).map
        fun r => meltCellAt header idCol r j := by
  induction rows with
  | nil => rfl
  | cons r rest ih =>
    simp only [List.map_cons, List.filter_cons]
    have hhead : (meltCellAt header idCol r j).2.2 = r.getD j Cell.null := rfl
    rw [hhead]
    cases hv : cellIsNA (r.getD j Cell.null) with
    | false => simp only [hv, Bool.not_false, if_true, List.map_cons, ih]
    | true => simp [hv, ih]

/-- Filtering the nulls out of the melt output is the same as skipping
null cells while enumerating column-major. -/
lemma melt_filter_eq_colMajorSpec (header : List Str) (idCol : Str)
    (rows : List (List Cell)) :
    (meltRecords header idCol rows).filter (fun t => !cellIsNA t.2.2) =
      colMajorSpecRecords header idCol rows := by
  unfold meltRecords colMajorSpecRecords
  rw [List.filter_flatMap]
  congr 1
  funext j
  exact filter_value_map header idCol j rows

/-- On a successful reshape, the records are exactly the column-major
enumeration with nulls skipped. -/
lemma reshape_records_eq (block : List (List Cell)) (idc : Option Str)
    (vn wn : Str) (t : LongTable) (h : reshape block idc vn wn = .ok t) :
    t.columns = [reshapeIdCol (blockHeader block) idc, vn, wn] ∧
      t.records = colMajorSpecRecords (blockHeader block)
        (reshapeIdCol (blockHeader block) idc) (keptRows block) := by
  unfold reshape at h
  dsimp only at h
  by_cases h1 : reshapeIdCol (deriveHeader (block.headD [])) idc ∉
      deriveHeader (block.headD [])
  · rw [if_pos h1] at h
    exact absurd h (by simp)
  · rw [if_neg h1] at h
    by_cases h2 : valueIdxs (deriveHeader (block.headD []))
        (reshapeIdCol (deriveHeader (block.headD [])) idc) = []
    · rw [if_pos h2] at h
      exact absurd h (by simp)
    · rw [if_neg h2] at h
      have ht : t = ⟨[reshapeIdCol (deriveHeader (block.headD [])) idc, vn, wn],
          (meltRecords (deriveHeader (block.headD []))
            (reshapeIdCol (deriveHeader (block.headD [])) idc)
            (keptRows block)).filter fun t => !cellIsNA t.2.2⟩ := by
        have := h
        simp only [Except.ok.injEq] at this
        exact this.symm
      rw [ht]
      exact ⟨rfl, melt_filter_eq_colMajorSpec _ _ _⟩

/-! ## Claim theorems about the reshaper (C1, C2, C3) -/

/-- C1 counterexample: the claim says the records come out row-major (all
records of the first surviving data row before all records of the
second).  On a fully populated 2×2 block, `melt` produces them
variable-major: the second record belongs to data row `y` while the third
belongs to data row `x`, so the output differs from the row-major
sequence the claim mandates. -/
theorem C1_counterexample_not_rowmajor :
    reshape wideFullBlock none varNameDefault valueNameDefault =
      .ok ⟨[['i', 'd'], varNameDefault, valueNameDefault],
        [(.str ['x'], ['2', '0', '2', '0'], .int 10),
         (.str ['y'], ['2', '0', '2', '0'], .int 30),
         (.str ['x'], ['2', '0', '2', '1'], .int 20),
         (.str ['y'], ['2', '0', '2', '1'], .int 40)]⟩
    ∧ ([(.str ['x'], ['2', '0', '2', '0'], .int 10),
        (.str ['y'], ['2', '0', '2', '0'], .int 30),
        (.str ['x'], ['2', '0', '2', '1'], .int 20),
        (.str ['y'], ['2', '0', '2', '1'], .int 40)] :
          List (Cell × Str × Cell)) ≠
        [(.str ['x'], ['2', '0', '2', '0'], .int 10),
         (.str ['x'], ['2', '0', '2', '1'], .int 20),
         (.str ['y'], ['2', '0', '2', '0'], .int 30),
         (.str ['y'], ['2', '0', '2', '1'], .int 40)] := by decide

/-- C1 (amended): the records of every successful reshape are in
variable-major (column-major) order — for each non-identifier column in
header order, all surviving rows' non-null records in row order — and the
spec's concrete example still yields exactly
`[("x","2020",10), ("y","2021",30)]`, because each of its rows has one
null cell. -/
theorem C1_amended_column_major_order :
    (∀ block : List (List Cell), ∀ idc : Option Str, ∀ vn wn : Str,
      ∀ t : LongTable, reshape block idc vn wn = .ok t →
        t.records = colMajorSpecRecords (blockHeader block)
          (reshapeIdCol (blockHeader block) idc) (keptRows block))
    ∧ reshape wideExampleBlock none varNameDefault valueNameDefault =
        .ok ⟨[['i', 'd'], varNameDefault, valueNameDefault],
          [(.str ['x'], ['2', '0', '2', '0'], .int 10),
           (.str ['y'], ['2', '0', '2', '1'], .int 30)]⟩ :=
  ⟨fun block idc vn wn t h => (reshape_records_eq block idc vn wn t h).2,
   by decide⟩

/-- C1 witness: the general ordering statement applied to the spec's
concrete example block. -/
theorem C1_amended_column_major_order_witness :
    (LongTable.mk [['i', 'd'], varNameDefault, valueNameDefault]
        [(.str ['x'], ['2', '0', '2', '0'], .int 10),
         (.str ['y'], ['2', '0', '2', '1'], .int 30)]).records =
      colMajorSpecRecords (blockHeader wideExampleBlock)
        (reshapeIdCol (blockHeader wideExampleBlock) none)
        (keptRows wideExampleBlock) :=
  C1_amended_column_major_order.1 wideExampleBlock none varNameDefault
    valueNameDefault _ (by decide)

/-- C2 counterexample: the claim says a record is emitted iff the cell is
not null/empty-equivalent, with blank strings omitted.  The code filters
with `isna()` only: a whitespace-only value is empty-equivalent by the
claim's definition, yet its record is emitted. -/
theorem C2_counterexample_blank_emitted :
    reshape blankValueBlock none varNameDefault valueNameDefault =
      .ok ⟨[['i', 'd'], varNameDefault, valueNameDefault],
        [(.str ['x'], ['2', '0', '2', '0'], .str [' '])]⟩
    ∧ cellIsEmpty (.str [' ']) = true := by decide

/-- C2 (amended): for every surviving data row and value-column position,
the melt record is in the output iff the cell value is not null (NaN);
blank strings are not filtered. -/
theorem C2_amended_null_only_filter :
    ∀ block : List (List Cell), ∀ idc : Option Str, ∀ vn wn : Str,
      ∀ t : LongTable, reshape block idc vn wn = .ok t →
      ∀ r : List Cell, ∀ j : Nat, r ∈ keptRows block →
        j ∈ valueIdxs (blockHeader block) (reshapeIdCol (blockHeader block) idc) →
        (meltCellAt (blockHeader block) (reshapeIdCol (blockHeader block) idc) r j
            ∈ t.records
          ↔ cellIsNA (r.getD j .null) = false) := by
  intro block idc vn wn t h r j hr hj
  rw [(reshape_records_eq block idc vn wn t h).2]
  unfold colMajorSpecRecords
  rw [List.mem_flatMap]
  constructor
  · rintro ⟨j2, hj2, hmem⟩
    rw [List.mem_map] at hmem
    obtain ⟨r2, hr2, heq⟩ := hmem
    rw [List.mem_filter] at hr2
    have hval : (meltCellAt (blockHeader block)
        (reshapeIdCol (blockHeader block) idc) r j).2.2 = r.getD j .null := rfl
    rw [← heq] at hval
    have : (meltCellAt (blockHeader block)
        (reshapeIdCol (blockHeader block) idc) r2 j2).2.2 = r2.getD j2 .null := rfl
    rw [this] at hval
    have := hr2.2
    rw [hval] at this
    simpa using this
  · intro hna
    refine ⟨j, hj, List.mem_map.mpr ⟨r, List.mem_filter.mpr ⟨hr, ?_⟩, rfl⟩⟩
    show (!cellIsNA (r.getD j Cell.null)) = true
    rw [hna]
    rfl

/-- C2 witness: the iff applied to the example block's surviving first
row at its first value column, whose value `10` is not null. -/
theorem C2_amended_null_only_filter_witness :
    meltCellAt (blockHeader wideExampleBlock)
        (reshapeIdCol (blockHeader wideExampleBlock) none)
        [Cell.str ['x'], Cell.int 10, Cell.null] 1 ∈
      (LongTable.mk [['i', 'd'], varNameDefault, valueNameDefault]
        [(.str ['x'], ['2', '0', '2', '0'], .int 10),
         (.str ['y'], ['2', '0', '2', '1'], .int 30)]).records
    ↔ cellIsNA (([Cell.str ['x'], Cell.int 10, Cell.null]).getD 1 .null) = false :=
  C2_amended_null_only_filter wideExampleBlock none varNameDefault
    valueNameDefault _ (by decide) [Cell.str ['x'], Cell.int 10, Cell.null] 1
    (by decide) (by decide)

/-- C3 counterexample: the claim says any data row whose every cell is
empty (null or blank-trimming-to-empty) is dropped before unpivoting.
A row of whitespace-only strings is empty-equivalent cell by cell, yet
`dropna(how="all")` keeps it and its records reach the output. -/
theorem C3_counterexample_blank_row_kept :
    keptRows blankRowBlock = [[.str [' '], .str [' ']], [.str ['x'], .int 1]]
    ∧ ([Cell.str [' '], Cell.str [' ']]).all cellIsEmpty = true
    ∧ reshape blankRowBlock none varNameDefault valueNameDefault =
        .ok ⟨[['i', 'd'], varNameDefault, valueNameDefault],
          [(.str [' '], ['a'], .str [' ']), (.str ['x'], ['a'], .int 1)]⟩ := by
  decide

/-- C3 (amended): a data row survives the pre-unpivot drop iff it has at
least one non-null cell — only all-null rows are dropped; rows of blank
strings survive. -/
theorem C3_amended_dropna_null_rows :
    ∀ block : List (List Cell), ∀ r : List Cell,
      r ∈ keptRows block ↔ r ∈ block.drop 1 ∧ ∃ c ∈ r, cellIsNA c = false := by
  intro block r
  unfold keptRows
  rw [List.mem_filter]
  refine and_congr_right fun _ => ?_
  rw [Bool.not_eq_true']
  rw [← Bool.not_eq_true, List.all_eq_true]
  push_neg
  constructor
  · rintro ⟨c, hc, hpc⟩
    exact ⟨c, hc, by simpa using hpc⟩
  · rintro ⟨c, hc, hpc⟩
    exact ⟨c, hc, by simp [hpc]⟩

/-- C3 witness: the all-blank row concretely survives the drop in
`blankRowBlock`. -/
theorem C3_amended_dropna_null_rows_witness :
    [Cell.str [' '], Cell.str [' ']] ∈ keptRows blankRowBlock :=
  (C3_amended_dropna_null_rows blankRowBlock [Cell.str [' '], Cell.str [' ']]).mpr
    ⟨by decide, ⟨Cell.str [' '], by decide, by decide⟩⟩

/-! ## Claim theorems about the writer and the header-only pipeline
(C8, C10) -/

/-- C8: the writer keeps the input's directory and names the output
`<stem>_long<ext>`, keeping the original extension exactly when its
lowercased form is one of the recognized spreadsheet extensions and
forcing `.csv` otherwise; concretely `data.xlsx ↦ data_long.xlsx`,
`data.txt ↦ data_long.csv` and extensionless `data ↦ data_long.csv`.
The returned pair carries the path the file is actually written to: the
CSV branch reassigns the path before writing, and the model returns the
reassigned value. -/
theorem C8_output_path_routing :
    (∀ input : PyPath,
      (outputTarget input).1.dir = input.dir
      ∧ (pyLower (pySuffix input.name) ∈ spreadsheetExts →
          (outputTarget input).1.name =
            pyStem input.name ++ ['_', 'l', 'o', 'n', 'g'] ++ pySuffix input.name
          ∧ (outputTarget input).2 = .excel)
      ∧ (pyLower (pySuffix input.name) ∉ spreadsheetExts →
          (outputTarget input).1.name =
            pyStem input.name ++ ['_', 'l', 'o', 'n', 'g', '.', 'c', 's', 'v']
          ∧ (outputTarget input).2 = .csv))
    ∧ outputTarget ⟨[], ['d', 'a', 't', 'a', '.', 'x', 'l', 's', 'x']⟩ =
        (⟨[], ['d', 'a', 't', 'a', '_', 'l', 'o', 'n', 'g', '.', 'x', 'l', 's',
          'x']⟩, .excel)
    ∧ outputTarget ⟨[], ['d', 'a', 't', 'a', '.', 't', 'x', 't']⟩ =
        (⟨[], ['d', 'a', 't', 'a', '_', 'l', 'o', 'n', 'g', '.', 'c', 's',
          'v']⟩, .csv)
    ∧ outputTarget ⟨[], ['d', 'a', 't', 'a']⟩ =
        (⟨[], ['d', 'a', 't', 'a', '_', 'l', 'o', 'n', 'g', '.', 'c', 's',
          'v']⟩, .csv) := by
  refine ⟨fun input => ?_, by decide, by decide, by decide⟩
  unfold outputTarget
  dsimp only
  by_cases hmem : pyLower (pySuffix input.name) ∈ spreadsheetExts
  · rw [if_pos hmem]
    have hs : pySuffix input.name ≠ [] := by
      intro hnil
      rw [hnil] at hmem
      exact absurd hmem (by decide)
    refine ⟨rfl, fun _ => ⟨?_, rfl⟩, fun hn => absurd hmem hn⟩
    dsimp only
    rw [if_pos hs]
  · rw [if_neg hmem]
    exact ⟨rfl, fun hmem2 => absurd hmem2 hmem, fun _ => ⟨rfl, rfl⟩⟩

/-- C8 witness: the general routing statement applied to the concrete
uppercase-extension input `DATA.XLSX`, whose original extension is kept
verbatim. -/
theorem C8_output_path_routing_witness :
    (outputTarget ⟨[], ['d', '.', 'X', 'L', 'S', 'X']⟩).1.name =
      pyStem ['d', '.', 'X', 'L', 'S', 'X'] ++ ['_', 'l', 'o', 'n', 'g'] ++
        pySuffix ['d', '.', 'X', 'L', 'S', 'X']
    ∧ (outputTarget ⟨[], ['d', '.', 'X', 'L', 'S', 'X']⟩).2 = .excel :=
  ((C8_output_path_routing.1 ⟨[], ['d', '.', 'X', 'L', 'S', 'X']⟩).2.1
    (by decide))

/-- A non-empty list contains its `headD`. -/
lemma headD_mem {α : Type} (l : List α) (d : α) (h : l ≠ []) : l.headD d ∈ l := by
  cases l with
  | nil => exact absurd rfl h
  | cons a t => exact List.mem_cons_self _ _

/-- `flatMap` of the constant empty function is empty. -/
lemma flatMap_const_nil {α β : Type} (l : List α) :
    (l.flatMap fun _ => ([] : List β)) = [] := by
  induction l with
  | nil => rfl
  | cons a t ih =>
    rw [List.flatMap_cons, List.nil_append]
    exact ih

/-- On a header-only block whose derived names are not all equal to the
first one, the reshaper succeeds with zero records. -/
lemma reshape_header_only (hdr : List Cell) (vn wn : Str)
    (h2 : 2 ≤ hdr.length)
    (hx : ∃ name ∈ deriveHeader hdr, name ≠ (deriveHeader hdr).headD []) :
    reshape [hdr] none vn wn =
      .ok ⟨[(deriveHeader hdr).headD [], vn, wn], []⟩ := by
  have hlen : (deriveHeader hdr).length = hdr.length := by
    unfold deriveHeader
    simp
  have hne : deriveHeader hdr ≠ [] := by
    intro hnil
    rw [hnil] at hlen
    simp at hlen
    omega
  have hmem : (deriveHeader hdr).headD [] ∈ deriveHeader hdr :=
    headD_mem _ _ hne
  obtain ⟨name, hnm, hnne⟩ := hx
  obtain ⟨jx, hjx, hjeq⟩ := List.mem_iff_getElem.mp hnm
  have hjval : jx ∈ valueIdxs (deriveHeader hdr) ((deriveHeader hdr).headD []) := by
    unfold valueIdxs
    rw [List.mem_filter]
    refine ⟨List.mem_range.mpr hjx, ?_⟩
    have hg : (deriveHeader hdr).getD jx [] = name := by
      rw [List.getD_eq_getElem _ _ hjx, hjeq]
    exact decide_eq_true (by rw [hg]; exact hnne)
  have hvne : valueIdxs (deriveHeader hdr) ((deriveHeader hdr).headD []) ≠ [] :=
    List.ne_nil_of_mem hjval
  unfold reshape
  dsimp only
  have hid : reshapeIdCol (deriveHeader hdr) none =
      (deriveHeader hdr).headD [] := rfl
  rw [show (([hdr] : List (List Cell)).headD []) = hdr from rfl]
  rw [hid]
  rw [if_neg (fun hn => hn hmem), if_neg hvne]
  have hkept : keptRows [hdr] = [] := rfl
  unfold meltRecords
  rw [hkept]
  simp only [List.map_nil, flatMap_const_nil, List.filter_nil]

/-- C10 counterexample: the claim says a one-row (header-only) block with
at least two columns never fails.  With two identical header names, the
default identifier column equals every column, `value_cols` is empty, and
the pipeline raises the no-value-columns error instead of succeeding. -/
theorem C10_counterexample_duplicate_headers :
    reshape dupHeaderBlock none varNameDefault valueNameDefault =
      .error .noValueColumns
    ∧ 2 ≤ (dupHeaderBlock.headD []).length
    ∧ dupHeaderBlock.length = 1 := by decide

/-- C10 (amended): if the trimmed block is exactly one header row with at
least two columns and some derived header name differs from the first
(default identifier) name, the pipeline does not fail: reshape returns
zero records and the writer writes only the three-column header row to
the routed output path. -/
theorem C10_amended_header_only_success :
    ∀ ws : Sheet, ∀ input : PyPath, ∀ hc : Str, ∀ hdr : List Cell,
      ∀ vn wn : Str,
      read_block_from_header ws hc = .ok [hdr] → 2 ≤ hdr.length →
      (∃ name ∈ deriveHeader hdr, name ≠ (deriveHeader hdr).headD []) →
      wide_to_long_from_excel ws input hc none vn wn =
        .ok ((outputTarget input).1, (outputTarget input).2,
          [[Cell.str ((deriveHeader hdr).headD []), Cell.str vn, Cell.str wn]]) := by
  intro ws input hc hdr vn wn hread h2 hx
  unfold wide_to_long_from_excel
  rw [hread]
  dsimp only
  rw [reshape_header_only hdr vn wn h2 hx]
  rfl

/-- C10 witness: a concrete 1×2 sheet whose single row is the header
`["id", "a"]` flows through the whole pipeline into a header-only CSV. -/
theorem C10_amended_header_only_success_witness :
    wide_to_long_from_excel ⟨1, 2, fun _ c => if c = 1 then .str ['i', 'd']
        else .str ['a']⟩ ⟨[], ['d', 'a', 't', 'a']⟩ ['A', '1'] none
        varNameDefault valueNameDefault =
      .ok ((outputTarget ⟨[], ['d', 'a', 't', 'a']⟩).1,
        (outputTarget ⟨[], ['d', 'a', 't', 'a']⟩).2,
        [[Cell.str ((deriveHeader [Cell.str ['i', 'd'], Cell.str ['a']]).headD []),
          Cell.str varNameDefault, Cell.str valueNameDefault]]) :=
  C10_amended_header_only_success
    ⟨1, 2, fun _ c => if c = 1 then .str ['i', 'd'] else .str ['a']⟩
    ⟨[], ['d', 'a', 't', 'a']⟩ ['A', '1'] [Cell.str ['i', 'd'], Cell.str ['a']]
    varNameDefault valueNameDefault (by decide) (by decide)
    ⟨['a'], by decide, by decide⟩

/-- C7 witness: a sheet with no populated rows fails with the empty-block
error, and the successful 3×3 extraction returns a block whose first row
is non-empty. -/
theorem C7_empty_block_conditions_witness :
    read_block_from_header ⟨0, 0, fun _ _ => .null⟩ ['A', '1'] =
        .error .emptyBlock
    ∧ ([[Cell.str ['v'], Cell.str ['v']], [Cell.str ['v'], Cell.str ['v']]] ≠
        ([] : List (List Cell)))
    ∧ ([[Cell.str ['v'], Cell.str ['v']],
        [Cell.str ['v'], Cell.str ['v']]].headD [] ≠ ([] : List Cell)) :=
  ⟨(C7_empty_block_conditions ⟨0, 0, fun _ _ => .null⟩ ['A', '1'] 1 1
      (by decide)).1.mpr (Or.inl (by decide)),
   ((C7_empty_block_conditions sheet3x3 ['A', '1'] 1 1 (by decide)).2
      [[Cell.str ['v'], Cell.str ['v']], [Cell.str ['v'], Cell.str ['v']]]
      (by decide)).1,
   ((C7_empty_block_conditions sheet3x3 ['A', '1'] 1 1 (by decide)).2
      [[Cell.str ['v'], Cell.str ['v']], [Cell.str ['v'], Cell.str ['v']]]
      (by decide)).2⟩

